import Mathlib

/-!
Shallow embedding of `monocle/worker_raider.py` (class `WorkerRaider`):
the job priority queue (`add_job` / `PriorityQueue.get`), the worker
selector (`best_worker`), the per-job visit attempt (`try_point`), the
dispatch loop in `launch`, and the concurrency semaphore.

Conventions:
- Python timestamps (`time()`, `monotonic()`, DB fields) are modelled as
  `Int` ticks; travel speeds and jitter radii as `Rat`.
- A Python dict key that may be absent is an `Option` field; `dict.get`
  with a default is `Option.getD`.
- Fallible evaluation is `Except PyErr`; an uncaught Python exception in
  a modelled function is an `Except.error`.
-/

namespace WorkerRaider

/-- Geographic point `(lat, lon)`. -/
abbrev Point : Type := Rat × Rat

/-- One fort/gym job dict, as built by `preload` and consumed by
`try_point` and `add_job`. The `name`/`url` fields are never read by the
scheduler and are omitted. `last_modified` and `updated` are `Option`
because `add_job` and `try_point` access them with `dict.get`, whose
fallback fires only when the key is absent. -/
structure Job where
  id : Int
  external_id : Int
  lat : Rat
  lon : Rat
  last_modified : Option Int
  updated : Option Int
  deriving DecidableEq

/-- The queue key priority of a job:
`gym.get('updated', gym.get('last_modified', 0))` — the fallback to
`last_modified` happens only when the `updated` KEY is missing, not when
its value is 0. -/
def jobPriority (gym : Job) : Int :=
  gym.updated.getD (gym.last_modified.getD 0)

/-- One entry of `job_queue`: the tuple
`(gym.get('updated', gym.get('last_modified', 0)), time(), gym)`. -/
structure Entry where
  priority : Int
  seq : Int
  job : Job
  deriving DecidableEq

/-- Strict lexicographic order on the `(priority, seq)` key, as compared
by `queue.PriorityQueue` on the first two tuple components. -/
def keyLtB (a b : Entry) : Bool :=
  a.priority < b.priority || (a.priority == b.priority && a.seq < b.seq)

theorem keyLtB_iff (a b : Entry) :
    keyLtB a b = true ↔
      (a.priority < b.priority ∨ (a.priority = b.priority ∧ a.seq < b.seq)) := by
  simp [keyLtB]

theorem keyLtB_irrefl (a : Entry) : keyLtB a a = false := by
  simp [keyLtB]

/-- `add_job(gym)`: `job_queue.put_nowait((priority, time(), gym))`, with
`now` the value of `time()` at the call. The queue is modelled as the
list of its entries in insertion order. -/
def add_job (now : Int) (gym : Job) (q : List Entry) : List Entry :=
  q ++ [⟨jobPriority gym, now, gym⟩]

/-- `job_queue.get()`: remove and return the entry with the smallest
`(priority, seq)` key. On a fully equal key CPython would fall through to
comparing the job dicts (a `TypeError`); `popMin` is left-biased there,
which is irrelevant under the distinct-seq hypotheses used below. -/
def popMin : List Entry → Option (Entry × List Entry)
  | [] => none
  | e :: es =>
    match popMin es with
    | none => some (e, [])
    | some (m, rest) => if keyLtB m e then some (m, e :: rest) else some (e, es)

theorem popMin_mem : ∀ {q : List Entry} {m : Entry} {rest : List Entry},
    popMin q = some (m, rest) → m ∈ q := by
  intro q
  induction q with
  | nil => intro m rest h; simp [popMin] at h
  | cons e es ih =>
    intro m rest h
    simp only [popMin] at h
    cases hrec : popMin es with
    | none =>
      rw [hrec] at h
      simp at h
      simp [h.1]
    | some p =>
      rw [hrec] at h
      by_cases hlt : keyLtB p.1 e = true
      · simp [hlt] at h
        have : p.1 ∈ es := ih (by rw [hrec])
        right
        rw [← h.1]
        exact this
      · simp [hlt] at h
        simp [h.1]

theorem popMin_none_iff (q : List Entry) : popMin q = none ↔ q = [] := by
  cases q with
  | nil => simp [popMin]
  | cons e es =>
    simp only [popMin]
    cases popMin es with
    | none => simp
    | some p => by_cases h : keyLtB p.1 e = true <;> simp [h]

theorem popMin_min : ∀ {q : List Entry} {m : Entry} {rest : List Entry},
    popMin q = some (m, rest) → ∀ e ∈ q, keyLtB e m = false := by
  intro q
  induction q with
  | nil => intro m rest h; simp [popMin] at h
  | cons x es ih =>
    intro m rest h e he
    simp only [popMin] at h
    cases hrec : popMin es with
    | none =>
      have hes : es = [] := (popMin_none_iff es).mp hrec
      subst hes
      rw [hrec] at h
      simp only [Option.some.injEq, Prod.mk.injEq] at h
      obtain ⟨hm, _⟩ := h
      subst hm
      simp only [List.mem_singleton] at he
      subst he
      exact keyLtB_irrefl e
    | some p =>
      obtain ⟨pm, prest⟩ := p
      rw [hrec] at h
      dsimp only at h
      have hmin : ∀ e ∈ es, keyLtB e pm = false := fun e he => ih hrec e he
      rcases List.mem_cons.mp he with he | he
      · subst he
        by_cases hlt : keyLtB pm e = true
        · rw [if_pos hlt] at h
          simp only [Option.some.injEq, Prod.mk.injEq] at h
          obtain ⟨hm, _⟩ := h
          subst hm
          -- asymmetry of the strict lexicographic order
          rw [keyLtB_iff] at hlt
          rw [Bool.eq_false_iff, Ne, keyLtB_iff]
          omega
        · rw [if_neg hlt] at h
          simp only [Option.some.injEq, Prod.mk.injEq] at h
          obtain ⟨hm, _⟩ := h
          subst hm
          exact keyLtB_irrefl e
      · have h1 : keyLtB e pm = false := hmin e he
        by_cases hlt : keyLtB pm x = true
        · rw [if_pos hlt] at h
          simp only [Option.some.injEq, Prod.mk.injEq] at h
          obtain ⟨hm, _⟩ := h
          subst hm
          exact h1
        · rw [if_neg hlt] at h
          simp only [Option.some.injEq, Prod.mk.injEq] at h
          obtain ⟨hm, _⟩ := h
          subst hm
          -- e is not below pm, pm is not below x, so e is not below x
          rw [keyLtB_iff] at hlt
          rw [Bool.eq_false_iff, Ne, keyLtB_iff] at h1
          rw [Bool.eq_false_iff, Ne, keyLtB_iff]
          omega

theorem popMin_length : ∀ {q : List Entry} {m : Entry} {rest : List Entry},
    popMin q = some (m, rest) → rest.length + 1 = q.length := by
  intro q
  induction q with
  | nil => intro m rest h; simp [popMin] at h
  | cons x es ih =>
    intro m rest h
    simp only [popMin] at h
    cases hrec : popMin es with
    | none =>
      have hes : es = [] := (popMin_none_iff es).mp hrec
      subst hes
      rw [hrec] at h
      simp only [Option.some.injEq, Prod.mk.injEq] at h
      rw [← h.2]
      rfl
    | some p =>
      obtain ⟨pm, prest⟩ := p
      rw [hrec] at h
      dsimp only at h
      have ihlen : prest.length + 1 = es.length := ih hrec
      by_cases hlt : keyLtB pm x = true
      · rw [if_pos hlt] at h
        simp only [Option.some.injEq, Prod.mk.injEq] at h
        rw [← h.2]
        simp only [List.length_cons]
        omega
      · rw [if_neg hlt] at h
        simp only [Option.some.injEq, Prod.mk.injEq] at h
        rw [← h.2]
        rfl

/-- Push a list of jobs in order with `add_job`, the i-th push seeing
`time() = t i`; this is what `preload` (and any sequence of requeues)
does to the queue. -/
def buildQueueAux (t : Nat → Int) (i : Nat) : List Job → List Entry → List Entry
  | [], q => q
  | j :: js, q => buildQueueAux t (i + 1) js (add_job (t i) j q)

def buildQueue (t : Nat → Int) (jobs : List Job) : List Entry :=
  buildQueueAux t 0 jobs []

/-- Closed form of the entries contributed by pushing `jobs` starting at
push index `i`. -/
def entriesFrom (t : Nat → Int) (i : Nat) : List Job → List Entry
  | [] => []
  | j :: js => ⟨jobPriority j, t i, j⟩ :: entriesFrom t (i + 1) js

theorem buildQueueAux_eq (t : Nat → Int) :
    ∀ (jobs : List Job) (i : Nat) (q : List Entry),
      buildQueueAux t i jobs q = q ++ entriesFrom t i jobs := by
  intro jobs
  induction jobs with
  | nil => intro i q; simp [buildQueueAux, entriesFrom]
  | cons j js ih =>
    intro i q
    rw [buildQueueAux, entriesFrom, ih, add_job]
    simp

theorem buildQueue_eq (t : Nat → Int) (jobs : List Job) :
    buildQueue t jobs = entriesFrom t 0 jobs := by
  rw [buildQueue, buildQueueAux_eq]
  rfl

theorem entriesFrom_seq (t : Nat → Int) :
    ∀ (jobs : List Job) (i : Nat), ∀ e ∈ entriesFrom t i jobs,
      ∃ k, i ≤ k ∧ k < i + jobs.length ∧ e.seq = t k := by
  intro jobs
  induction jobs with
  | nil => intro i e he; simp [entriesFrom] at he
  | cons j js ih =>
    intro i e he
    rw [entriesFrom] at he
    rcases List.mem_cons.mp he with he | he
    · exact ⟨i, le_refl i, by simp, by rw [he]⟩
    · obtain ⟨k, hk1, hk2, hk3⟩ := ih (i + 1) e he
      exact ⟨k, by omega, by simp only [List.length_cons]; omega, hk3⟩

/-- Entries produced by pushing in order carry strictly increasing
sequence components whenever the push-time sequence is strictly
monotone. -/
theorem entriesFrom_pairwise (t : Nat → Int) (hmono : StrictMono t) :
    ∀ (jobs : List Job) (i : Nat),
      List.Pairwise (fun a b : Entry => a.seq < b.seq) (entriesFrom t i jobs) := by
  intro jobs
  induction jobs with
  | nil => intro i; simp [entriesFrom]
  | cons j js ih =>
    intro i
    rw [entriesFrom]
    refine List.Pairwise.cons ?_ (ih (i + 1))
    intro e he
    obtain ⟨k, hk1, _, hk3⟩ := entriesFrom_seq t js (i + 1) e he
    have : t i < t k := hmono (by omega)
    simp only [hk3]
    exact this

/-- Python exceptions that escape a modelled function. -/
inductive PyErr
  | unboundLocalWorker
  deriving DecidableEq

/-- One WorkerRaider worker as read by the scheduler: its index, whether
`w.busy.locked()` holds, its `travel_speed` estimator, the `speed` field
written by `best_worker`, and the `scan_delayed` metric (0 at init). -/
structure WorkerM where
  worker_no : Nat
  busyLocked : Bool
  travel_speed : Point → Rat
  speed : Option Rat
  scan_delayed : Int

/-- The idle-worker scan of `best_worker`: a generator over the workers
whose busy guard is free; `next` takes the first one, the `for` loop
keeps the strictly smaller `travel_speed`, so the first idle worker wins
ties. Yields none exactly when the generator is empty (`StopIteration`). -/
def selectIdle (workers : List WorkerM) (point : Point) : Option WorkerM :=
  match workers.filter (fun w => !w.busyLocked) with
  | [] => none
  | w :: rest =>
    some (rest.foldl (fun best c =>
      if c.travel_speed point < best.travel_speed point then c else best) w)

/-- The urgency value computed and logged by `best_worker`:
`conf.SPEED_LIMIT * (1.0 + (min_time_diff / tolerable_time_diff))` with
`tolerable_time_diff = 300` and
`min_time_diff = max(min(time() - updated, 1500), 0)`. -/
def speed_limit_value (speedLimitConf : Rat) (wallTime updated : Int) : Rat :=
  let tolerable_time_diff : Int := 300
  let time_diff : Int := wallTime - updated
  let min_time_diff : Int := max (min time_diff (tolerable_time_diff * 5)) 0
  speedLimitConf * (1 + (min_time_diff : Rat) / (tolerable_time_diff : Rat))

/-- `best_worker(point, job, updated, skip_time)`. Each iteration of the
`while self.overseer.running` loop either returns the chosen worker
(`if worker:` is always true for a worker instance, since the commented
speed-limit conjunct is disabled) or raises `UnboundLocalError` at
`if worker:` when no worker was idle, because the `except StopIteration`
handler sets only `lowest_speed` and never binds the local variable
`worker`. The deadline test `monotonic() > skip_time` and the
`await sleep(conf.SEARCH_SLEEP)` at the bottom of the loop are therefore
unreachable. A false run flag falls out of the loop and returns None
implicitly. The `job` and `skip_time` arguments and the logged
`speed_limit_value` never influence the result. -/
def best_worker (running : Bool) (workers : List WorkerM) (wallTime : Int)
    (speedLimitConf : Rat) (point : Point) (job : Job) (updated : Int)
    (skip_time : Int) : Except PyErr (Option WorkerM) :=
  if running then
    match selectIdle workers point with
    | some best =>
      let lowest_speed := best.travel_speed point
      let _sl := speed_limit_value speedLimitConf wallTime updated
      let _ := job.external_id  -- read only by the log line
      let _ := skip_time        -- read only by the unreachable deadline test
      Except.ok (some { best with speed := some lowest_speed })
    | none => Except.error PyErr.unboundLocalWorker
  else Except.ok none

/-- Result of one `worker.visit(point, gym)` call: the sentinel `-1`
(transient block, which is truthy), any other truthy result, or a falsy
result. -/
inductive VisitResult
  | blocked
  | seen
  | nothing
  deriving DecidableEq

/-- How one execution of `try_point` ended. Only `cancelled` re-raises
out of the attempt (into its own task, not into the dispatch loop). -/
inductive Outcome
  | success
  | skipGymNotFound
  | skipNothingSeen
  | skipUnexpected
  | noWorker
  | cancelled
  deriving DecidableEq

/-- Coarse jitter radius of the first `randomize_point` call (about 3
meters). -/
def jitterCoarse : Rat := 3 / 100000

/-- Tighter jitter radius of the retry `randomize_point` call (about 1
meter). -/
def jitterTight : Rat := 1 / 100000

/-- The ambient world of one `try_point` execution: the run flag and
worker list read by `best_worker`, the jitter oracle, the results the
visit capability would return for the first and the retried call,
whether a `CancelledError` is delivered at the visit await, and the
clock readings of the individual `time()` / `monotonic()` calls. -/
structure Env where
  running : Bool
  workers : List WorkerM
  jitterFn : Point → Rat → Point
  visit1 : VisitResult
  visit2 : VisitResult
  cancelDuringVisit : Bool
  nowT : Int
  wallTime : Int
  monotonicT : Int
  searchSleep : Int
  speedLimitConf : Rat
  seqTime : Int

/-- Everything `try_point` produces before its `finally` block: the new
counter values, the outcome classification, the job as it will be
re-enqueued, the jitter radii used in order, the `scan_delayed` value
written to the chosen worker, and the `speed` recorded on it. -/
structure AttemptResult where
  visits : Nat
  skipped : Nat
  hash_burn : Nat
  outcome : Outcome
  job : Job
  jitters : List Rat
  scanDelayed : Option Int
  speedSet : Option Rat

/-- The body of `try_point(job)` up to (not including) the `finally`
block, over current counter values. Branches follow the source: a None
from `best_worker` returns early; an escaped exception lands in
`except Exception` (skipped += 1); a `-1` first visit burns a hash,
re-jitters tighter and retries once; a truthy final result that is `-1`
raises `GymNotFoundError`, any other truthy result is a success, a falsy
result raises `NothingSeenAtGymSpotError`; both named errors land in
their own handler (skipped += 1); `CancelledError` is re-raised. -/
def try_point_body (env : Env) (job : Job)
    (visits skipped hash_burn : Nat) : AttemptResult :=
  let point0 : Point := (job.lat, job.lon)
  let updated := jobPriority job
  let point1 := env.jitterFn point0 jitterCoarse
  let skip_time := env.monotonicT + env.searchSleep * 2
  match best_worker env.running env.workers env.wallTime env.speedLimitConf
      point1 job updated skip_time with
  | Except.ok none =>
    ⟨visits, skipped, hash_burn, Outcome.noWorker, job,
      [jitterCoarse], none, none⟩
  | Except.error _ =>
    ⟨visits, skipped + 1, hash_burn, Outcome.skipUnexpected, job,
      [jitterCoarse], none, none⟩
  | Except.ok (some w) =>
    if env.cancelDuringVisit then
      ⟨visits, skipped, hash_burn, Outcome.cancelled, job,
        [jitterCoarse], none, w.speed⟩
    else
      match env.visit1 with
      | VisitResult.blocked =>
        let _point2 := env.jitterFn point1 jitterTight
        match env.visit2 with
        | VisitResult.blocked =>
          ⟨visits, skipped + 1, hash_burn + 1, Outcome.skipGymNotFound, job,
            [jitterCoarse, jitterTight], none, w.speed⟩
        | VisitResult.seen =>
          ⟨visits + 1, skipped, hash_burn + 1, Outcome.success,
            { job with updated := some env.nowT },
            [jitterCoarse, jitterTight], some (env.nowT - updated), w.speed⟩
        | VisitResult.nothing =>
          ⟨visits, skipped + 1, hash_burn + 1, Outcome.skipNothingSeen, job,
            [jitterCoarse, jitterTight], none, w.speed⟩
      | VisitResult.seen =>
        ⟨visits + 1, skipped, hash_burn, Outcome.success,
          { job with updated := some env.nowT },
          [jitterCoarse], some (env.nowT - updated), w.speed⟩
      | VisitResult.nothing =>
        ⟨visits, skipped + 1, hash_burn, Outcome.skipNothingSeen, job,
          [jitterCoarse], none, w.speed⟩

/-- Class-level scheduler state touched by one attempt: the queue, the
three counters, and the value of the concurrency semaphore. -/
structure RaiderState where
  queue : List Entry
  visits : Nat
  skipped : Nat
  hash_burn : Nat
  sem : Nat

structure TPResult where
  state : RaiderState
  outcome : Outcome
  job : Job
  jitters : List Rat
  scanDelayed : Option Int
  speedSet : Option Rat

/-- Full `try_point(job)` including its `finally` block, which always
runs `self.add_job(job)` (with `time() = env.seqTime`) followed by
`self.coroutine_semaphore.release()`, in every branch including an early
return, a caught exception and a re-raised `CancelledError`. -/
def try_point (env : Env) (job : Job) (s : RaiderState) : TPResult :=
  let r := try_point_body env job s.visits s.skipped s.hash_burn
  { state := { queue := add_job env.seqTime r.job s.queue,
               visits := r.visits, skipped := r.skipped,
               hash_burn := r.hash_burn, sem := s.sem + 1 },
    outcome := r.outcome, job := r.job, jitters := r.jitters,
    scanDelayed := r.scanDelayed, speedSet := r.speedSet }

/-- One pass of the inner drain of `launch`:
`job = self.job_queue.get()[2]`, one semaphore acquire, then the task
running `try_point(job)` to completion (no other attempt interleaves a
push). None when the queue is empty (the inner `while` guard). -/
def dispatchCycle (env : Env) (s : RaiderState) : Option RaiderState :=
  match popMin s.queue with
  | none => none
  | some (e, rest) =>
    some (try_point env e.job { s with queue := rest, sem := s.sem - 1 }).state

/-- Counting-semaphore view of `coroutine_semaphore` together with the
number of in-flight attempts (between the acquire in `launch` and the
release in the `finally` of `try_point`). -/
structure SemState where
  value : Nat
  inflight : Nat
  deriving DecidableEq

/-- The only operations the scheduler performs on the semaphore: one
acquire before each launched attempt (blocking while the value is 0) and
exactly one release in each attempt's cleanup. -/
inductive SemStep : SemState → SemState → Prop
  | acquire (s : SemState) (h : 0 < s.value) :
      SemStep s ⟨s.value - 1, s.inflight + 1⟩
  | release (s : SemState) (h : 0 < s.inflight) :
      SemStep s ⟨s.value + 1, s.inflight - 1⟩

/-- States reachable from the initial semaphore value
`Semaphore(workers_needed)` with no attempt in flight. -/
def SemReachable (n : Nat) : SemState → Prop :=
  Relation.ReflTransGen SemStep ⟨n, 0⟩

theorem semReachable_sum (n : Nat) :
    ∀ s, SemReachable n s → s.value + s.inflight = n := by
  intro s h
  induction h with
  | refl => rfl
  | tail _ hstep ih =>
    cases hstep with
    | acquire h => simp only []; omega
    | release h => simp only []; omega

/-- One iteration of the `while True` loop in `launch`: the inner drain
runs under `except Exception` (a failure there is logged and swallowed),
then `await sleep(1)`. A `CancelledError` delivered at an await reaches
the outer `except CancelledError` handler and ends the loop. -/
inductive LoopEvent
  | iteration (bodyFailed : Bool)
  | cancel
  deriving DecidableEq

inductive LoopExit
  | stillRunning
  | cancelled
  deriving DecidableEq

/-- The dispatch loop of `launch` run over a finite schedule of events:
it keeps iterating through every non-cancel event and exits only on
cancellation. -/
def launch_loop : List LoopEvent → LoopExit
  | [] => LoopExit.stillRunning
  | LoopEvent.cancel :: _ => LoopExit.cancelled
  | LoopEvent.iteration _ :: rest => launch_loop rest

/-! Helper lemmas about the idle-worker scan. -/

theorem foldl_minSpeed_mem (point : Point) :
    ∀ (rest : List WorkerM) (w : WorkerM),
      (rest.foldl (fun best c =>
        if c.travel_speed point < best.travel_speed point then c else best) w)
        ∈ w :: rest := by
  intro rest
  induction rest with
  | nil => intro w; simp
  | cons c cs ih =>
    intro w
    rw [List.foldl_cons]
    by_cases hc : c.travel_speed point < w.travel_speed point
    · rw [if_pos hc]
      rcases List.mem_cons.mp (ih c) with h | h
      · rw [h]; simp
      · right; right; exact h
    · rw [if_neg hc]
      rcases List.mem_cons.mp (ih w) with h | h
      · rw [h]; simp
      · right; right; exact h

theorem foldl_minSpeed_le (point : Point) :
    ∀ (rest : List WorkerM) (w : WorkerM), ∀ x ∈ w :: rest,
      (rest.foldl (fun best c =>
        if c.travel_speed point < best.travel_speed point then c else best)
          w).travel_speed point ≤ x.travel_speed point := by
  intro rest
  induction rest with
  | nil =>
    intro w x hx
    simp only [List.mem_singleton] at hx
    subst hx
    simp
  | cons c cs ih =>
    intro w x hx
    rw [List.foldl_cons]
    set w2 := if c.travel_speed point < w.travel_speed point then c else w with hw2
    have hle : (cs.foldl (fun best c =>
        if c.travel_speed point < best.travel_speed point then c else best)
          w2).travel_speed point ≤ w2.travel_speed point :=
      ih w2 w2 (List.mem_cons_self w2 cs)
    have hw2w : w2.travel_speed point ≤ w.travel_speed point := by
      rw [hw2]
      by_cases hc : c.travel_speed point < w.travel_speed point
      · rw [if_pos hc]; exact le_of_lt hc
      · rw [if_neg hc]
    have hw2c : w2.travel_speed point ≤ c.travel_speed point := by
      rw [hw2]
      by_cases hc : c.travel_speed point < w.travel_speed point
      · rw [if_pos hc]
      · rw [if_neg hc]; exact le_of_not_lt hc
    rcases List.mem_cons.mp hx with hx | hx
    · subst hx; exact le_trans hle hw2w
    rcases List.mem_cons.mp hx with hx | hx
    · subst hx; exact le_trans hle hw2c
    · exact ih w2 x (List.mem_cons_of_mem w2 hx)

/-- The scan returns a member of the idle list achieving the minimum
travel speed. -/
theorem selectIdle_spec (workers : List WorkerM) (point : Point)
    (h : workers.filter (fun w => !w.busyLocked) ≠ []) :
    ∃ best, selectIdle workers point = some best ∧
      best ∈ workers.filter (fun w => !w.busyLocked) ∧
      ∀ x ∈ workers.filter (fun w => !w.busyLocked),
        best.travel_speed point ≤ x.travel_speed point := by
  unfold selectIdle
  cases hf : workers.filter (fun w => !w.busyLocked) with
  | nil => exact absurd hf h
  | cons w rest =>
    refine ⟨_, rfl, ?_, ?_⟩
    · exact foldl_minSpeed_mem point rest w
    · intro x hx
      exact foldl_minSpeed_le point rest w x hx

/-! Claim theorems. -/

/-- Fixture for C1: one worker whose busy guard is held, run flag true,
deadline well in the future. -/
def c1job : Job := ⟨1, 10, 0, 0, some 0, some 0⟩

def c1worker : WorkerM := ⟨0, true, fun _ => 1, none, 0⟩

def c1env : Env :=
  { running := true, workers := [c1worker], jitterFn := fun p _ => p,
    visit1 := VisitResult.seen, visit2 := VisitResult.seen,
    cancelDuringVisit := false, nowT := 100, wallTime := 100,
    monotonicT := 0, searchSleep := 10, speedLimitConf := 19, seqTime := 101 }

def c1state : RaiderState := ⟨[], 0, 0, 0, 3⟩

/-- C1: the claim says that with no idle worker and the deadline not yet
passed, `best_worker` sleeps and rescans, returns None once the deadline
passes, and `try_point` then ends with no counters changed. The code
instead raises `UnboundLocalError` on the very first scan (the
`except StopIteration` branch never binds the local variable `worker`),
so the polling sleep and the deadline return are unreachable, and the
generic handler of `try_point` increments the skipped counter. This
theorem evaluates the code at such an input: the run flag is true, the
single worker is busy, `monotonic() = 0` is far below
`skip_time = 0 + 10 * 2`, yet the selector errors and `skipped` goes
from 0 to 1. -/
theorem c1_no_idle_scan_raises_instead_of_polling :
    best_worker c1env.running c1env.workers c1env.wallTime
        c1env.speedLimitConf ((0 : Rat), (0 : Rat)) c1job (jobPriority c1job)
        (c1env.monotonicT + c1env.searchSleep * 2)
      = Except.error PyErr.unboundLocalWorker ∧
    c1env.monotonicT < c1env.monotonicT + c1env.searchSleep * 2 ∧
    (try_point c1env c1job c1state).outcome = Outcome.skipUnexpected ∧
    (try_point c1env c1job c1state).state.skipped = c1state.skipped + 1 ∧
    (try_point c1env c1job c1state).job = c1job := by
  refine ⟨rfl, by norm_num [c1env], rfl, rfl, rfl⟩

/-- Fixture for C3: a job whose `updated` key is present with value 0
while `last_modified` is 5. -/
def c3job : Job := ⟨1, 10, 0, 0, some 5, some 0⟩

/-- C3 counterexample: the claim says a job whose `updated` is unset/0
but whose `last_modified` is nonzero is keyed by `last_modified`. For a
job carrying `updated = 0` and `last_modified = 5` the code keys it by
0, not 5, because `dict.get` falls back only on a missing key, never on
a zero value. -/
theorem c3_zero_updated_keyed_by_zero :
    c3job.updated = some 0 ∧ c3job.last_modified = some 5 ∧
    jobPriority c3job = 0 ∧ jobPriority c3job ≠ 5 := by
  refine ⟨rfl, rfl, rfl, by decide⟩

/-- C3 (amended): the priority component equals the value of the
`updated` key whenever that key is present — including when the value is
0 — and falls back to `last_modified` only when the `updated` key is
absent, and to 0 when both keys are absent. -/
theorem c3_priority_key_presence (g : Job) :
    (∀ u, g.updated = some u → jobPriority g = u) ∧
    (g.updated = none → ∀ m, g.last_modified = some m → jobPriority g = m) ∧
    (g.updated = none → g.last_modified = none → jobPriority g = 0) := by
  refine ⟨?_, ?_, ?_⟩
  · intro u hu; simp [jobPriority, hu]
  · intro hu m hm; simp [jobPriority, hu, hm]
  · intro hu hm; simp [jobPriority, hu, hm]

/-- Witness for C3: the amended statement evaluated at the
counterexample job and at the same job with the `updated` key removed. -/
theorem c3_priority_key_presence_witness :
    jobPriority c3job = 0 ∧
    jobPriority ⟨1, 10, 0, 0, some 5, none⟩ = 5 :=
  ⟨(c3_priority_key_presence c3job).1 0 rfl,
   (c3_priority_key_presence ⟨1, 10, 0, 0, some 5, none⟩).2.1 rfl 5 rfl⟩

/-- C4: every execution of `try_point` ends with exactly one
re-insertion of its job into the queue — the final queue is exactly the
incoming queue with one `add_job` applied, in every branch — and a full
dispatch cycle (one `job_queue.get()` followed by the attempt it
launches, with no concurrent pushes) preserves the queue size. -/
theorem c4_requeue_exactly_once :
    (∀ (env : Env) (job : Job) (s : RaiderState),
      (try_point env job s).state.queue
        = add_job env.seqTime (try_point env job s).job s.queue ∧
      (try_point env job s).state.queue.length = s.queue.length + 1) ∧
    (∀ (env : Env) (s s2 : RaiderState), dispatchCycle env s = some s2 →
      s2.queue.length = s.queue.length) := by
  constructor
  · intro env job s
    refine ⟨rfl, ?_⟩
    simp [try_point, add_job]
  · intro env s s2 h
    unfold dispatchCycle at h
    cases hp : popMin s.queue with
    | none => rw [hp] at h; exact absurd h (by simp)
    | some p =>
      obtain ⟨e, rest⟩ := p
      rw [hp] at h
      dsimp only at h
      have hlen : rest.length + 1 = s.queue.length := popMin_length hp
      have : s2.queue.length = rest.length + 1 := by
        rw [← Option.some_inj.mp h]
        simp [try_point, add_job]
      omega

/-- Witness for C4: a dispatch cycle on a one-entry queue returns a
state whose queue again has one entry. -/
theorem c4_requeue_exactly_once_witness :
    ∃ s2, dispatchCycle c1env ⟨[⟨0, 0, c1job⟩], 0, 0, 0, 3⟩ = some s2 ∧
      s2.queue.length = 1 :=
  ⟨_, rfl, c4_requeue_exactly_once.2 c1env ⟨[⟨0, 0, c1job⟩], 0, 0, 0, 3⟩ _ rfl⟩

/-- C8: the semaphore is created as `Semaphore(workers_needed)`; every
launched attempt is preceded by exactly one acquire and its cleanup
performs exactly one release, so along any sequence of acquire/release
steps from the initial state the number of in-flight attempts never
exceeds the worker count and the semaphore value returns to the initial
count whenever no attempt is in flight; moreover each `try_point`
performs exactly one release. -/
theorem c8_semaphore_bounded (n : Nat) :
    (∀ s, SemReachable n s →
      s.inflight ≤ n ∧ (s.inflight = 0 → s.value = n)) ∧
    (∀ (env : Env) (job : Job) (st : RaiderState),
      (try_point env job st).state.sem = st.sem + 1) := by
  constructor
  · intro s h
    have hsum := semReachable_sum n s h
    constructor
    · omega
    · intro h0; omega
  · intro env job st
    rfl

/-- Witness for C8: after one acquire from the initial state with two
permits, one attempt is in flight, within the bound. -/
theorem c8_semaphore_bounded_witness :
    (⟨1, 1⟩ : SemState).inflight ≤ 2 ∧
    ((⟨1, 1⟩ : SemState).inflight = 0 → (⟨1, 1⟩ : SemState).value = 2) :=
  (c8_semaphore_bounded 2).1 ⟨1, 1⟩
    (Relation.ReflTransGen.single (SemStep.acquire ⟨2, 0⟩ (by norm_num)))

/-- C10: whenever `overseer.running` is false, the `while` guard of
`best_worker` fails immediately, no worker is scanned and no deadline is
consulted, and the function falls through returning None; the calling
`try_point` then returns early, changing no counters and no job fields,
and its cleanup still re-enqueues the job and releases the semaphore. -/
theorem c10_run_flag_false_returns_none (env : Env) (job : Job)
    (s : RaiderState) (h : env.running = false) :
    (∀ (point : Point) (updated skip_time : Int),
      best_worker env.running env.workers env.wallTime env.speedLimitConf
        point job updated skip_time = Except.ok none) ∧
    (try_point env job s).outcome = Outcome.noWorker ∧
    (try_point env job s).state.visits = s.visits ∧
    (try_point env job s).state.skipped = s.skipped ∧
    (try_point env job s).state.hash_burn = s.hash_burn ∧
    (try_point env job s).job = job ∧
    (try_point env job s).state.queue = add_job env.seqTime job s.queue ∧
    (try_point env job s).state.sem = s.sem + 1 := by
  have hbw : ∀ (point : Point) (updated skip_time : Int),
      best_worker env.running env.workers env.wallTime env.speedLimitConf
        point job updated skip_time = Except.ok none := by
    intro point updated skip_time
    unfold best_worker
    rw [h]
    rfl
  refine ⟨hbw, ?_⟩
  have h2 := hbw (env.jitterFn (job.lat, job.lon) jitterCoarse)
    (jobPriority job) (env.monotonicT + env.searchSleep * 2)
  simp only [try_point, try_point_body, h2]
  simp

/-- The selector under a true run flag and a nonempty idle set: it
returns the scanned minimum with its speed recorded. -/
theorem best_worker_found (running : Bool) (workers : List WorkerM)
    (wallTime : Int) (slc : Rat) (point : Point) (job : Job)
    (updated skip_time : Int) (hrun : running = true)
    (hidle : workers.filter (fun w => !w.busyLocked) ≠ []) :
    ∃ best, selectIdle workers point = some best ∧
      best_worker running workers wallTime slc point job updated skip_time
        = Except.ok (some { best with speed := some (best.travel_speed point) }) := by
  obtain ⟨best, hsel, _, _⟩ := selectIdle_spec workers point hidle
  refine ⟨best, hsel, ?_⟩
  simp [best_worker, hrun, hsel]

/-- C7: with at least one idle worker at scan time, `best_worker`
returns an idle worker minimizing the travel-speed estimate to the
target point, records that speed on the worker, and accepts it
unconditionally: the logged speed-limit/urgency inputs (`time()`, the
job staleness, `conf.SPEED_LIMIT`) and the deadline never change the
result. -/
theorem c7_selector_picks_fastest_idle (running : Bool)
    (workers : List WorkerM) (wallTime : Int) (slc : Rat) (point : Point)
    (job : Job) (updated skip_time : Int) (hrun : running = true)
    (hidle : workers.filter (fun w => !w.busyLocked) ≠ []) :
    ∃ best,
      best_worker running workers wallTime slc point job updated skip_time
        = Except.ok (some { best with speed := some (best.travel_speed point) }) ∧
      best ∈ workers.filter (fun w => !w.busyLocked) ∧
      (∀ x ∈ workers.filter (fun w => !w.busyLocked),
        best.travel_speed point ≤ x.travel_speed point) ∧
      (∀ (wallTime2 : Int) (slc2 : Rat) (updated2 skip2 : Int),
        best_worker running workers wallTime2 slc2 point job updated2 skip2
          = best_worker running workers wallTime slc point job
              updated skip_time) := by
  obtain ⟨best, hsel, hmem, hmin⟩ := selectIdle_spec workers point hidle
  refine ⟨best, ?_, hmem, hmin, ?_⟩
  · simp [best_worker, hrun, hsel]
  · intro wallTime2 slc2 updated2 skip2
    simp [best_worker, hrun, hsel]

/-- Fixtures for the C7 witness: two idle workers with travel costs 5
and 2. -/
def c7w5 : WorkerM := ⟨0, false, fun _ => 5, none, 0⟩

def c7w2 : WorkerM := ⟨1, false, fun _ => 2, none, 0⟩

def c7job : Job := ⟨4, 14, 0, 0, some 0, some 0⟩

/-- Witness for C7: given idle workers with costs 5.0 and 2.0 the
selector returns the cost-2.0 worker, with its speed recorded. -/
theorem c7_selector_picks_fastest_idle_witness :
    (best_worker true [c7w5, c7w2] 0 0 ((0 : Rat), (0 : Rat)) c7job 0 0
      = Except.ok (some { c7w2 with speed := some 2 })) ∧
    (∃ best,
      best_worker true [c7w5, c7w2] 0 0 ((0 : Rat), (0 : Rat)) c7job 0 0
        = Except.ok (some { best with
            speed := some (best.travel_speed ((0 : Rat), (0 : Rat))) }) ∧
      best ∈ [c7w5, c7w2].filter (fun w => !w.busyLocked) ∧
      (∀ x ∈ [c7w5, c7w2].filter (fun w => !w.busyLocked),
        best.travel_speed ((0 : Rat), (0 : Rat))
          ≤ x.travel_speed ((0 : Rat), (0 : Rat))) ∧
      (∀ (wallTime2 : Int) (slc2 : Rat) (updated2 skip2 : Int),
        best_worker true [c7w5, c7w2] wallTime2 slc2
            ((0 : Rat), (0 : Rat)) c7job updated2 skip2
          = best_worker true [c7w5, c7w2] 0 0
              ((0 : Rat), (0 : Rat)) c7job 0 0)) :=
  ⟨rfl,
   c7_selector_picks_fastest_idle true [c7w5, c7w2] 0 0
     ((0 : Rat), (0 : Rat)) c7job 0 0 rfl (by simp [c7w5, c7w2])⟩

/-- C5: a transient-block sentinel on the first visit increments the
resource-burn counter, re-jitters with the tighter 0.00001 radius (about
1 meter, not the initial 0.00003), and retries exactly once — the
attempt uses exactly the two jitter radii in order; if the retried visit
is again the sentinel, the attempt is classified as the gym-not-found
skip and the skipped counter is incremented. -/
theorem c5_transient_block_single_retry (env : Env) (job : Job)
    (s : RaiderState) (hrun : env.running = true)
    (hidle : env.workers.filter (fun w => !w.busyLocked) ≠ [])
    (hnc : env.cancelDuringVisit = false)
    (hb : env.visit1 = VisitResult.blocked) :
    (try_point env job s).state.hash_burn = s.hash_burn + 1 ∧
    (try_point env job s).jitters = [jitterCoarse, jitterTight] ∧
    jitterCoarse = 3 / 100000 ∧ jitterTight = 1 / 100000 ∧
    (env.visit2 = VisitResult.blocked →
      (try_point env job s).outcome = Outcome.skipGymNotFound ∧
      (try_point env job s).state.skipped = s.skipped + 1) := by
  obtain ⟨best, hsel, hbw⟩ := best_worker_found env.running env.workers
    env.wallTime env.speedLimitConf (env.jitterFn (job.lat, job.lon) jitterCoarse)
    job (jobPriority job) (env.monotonicT + env.searchSleep * 2) hrun hidle
  cases hv2 : env.visit2 <;>
    simp [try_point, try_point_body, hbw, hnc, hb, hv2] <;>
    norm_num [jitterCoarse, jitterTight]

/-- Fixtures for the C5 witness. -/
def c5worker : WorkerM := ⟨0, false, fun _ => 3, none, 0⟩

def c5job : Job := ⟨5, 15, 0, 0, some 0, some 0⟩

def c5env : Env :=
  { running := true, workers := [c5worker], jitterFn := fun p _ => p,
    visit1 := VisitResult.blocked, visit2 := VisitResult.blocked,
    cancelDuringVisit := false, nowT := 100, wallTime := 100,
    monotonicT := 0, searchSleep := 10, speedLimitConf := 19, seqTime := 101 }

def c5state : RaiderState := ⟨[], 0, 0, 0, 1⟩

/-- Witness for C5: a doubly blocked visit burns one hash, jitters with
the two radii, and ends as a gym-not-found skip. -/
theorem c5_transient_block_single_retry_witness :
    (try_point c5env c5job c5state).state.hash_burn
        = c5state.hash_burn + 1 ∧
    (try_point c5env c5job c5state).jitters = [jitterCoarse, jitterTight] ∧
    jitterCoarse = 3 / 100000 ∧ jitterTight = 1 / 100000 ∧
    (c5env.visit2 = VisitResult.blocked →
      (try_point c5env c5job c5state).outcome = Outcome.skipGymNotFound ∧
      (try_point c5env c5job c5state).state.skipped = c5state.skipped + 1) :=
  c5_transient_block_single_retry c5env c5job c5state rfl
    (by simp [c5env, c5worker]) rfl rfl

/-- C6: a successful visit (any truthy result other than the sentinel,
on the first try or after the single retry) sets the re-enqueued job's
`updated` field to the completion time `int(time())`, sets the chosen
worker's `scan_delayed` metric to that time minus the updated value read
at the start of the attempt, and increments the success counter. -/
theorem c6_success_updates_job_and_metrics (env : Env) (job : Job)
    (s : RaiderState) (hrun : env.running = true)
    (hidle : env.workers.filter (fun w => !w.busyLocked) ≠ [])
    (hnc : env.cancelDuringVisit = false)
    (hv : env.visit1 = VisitResult.seen ∨
      (env.visit1 = VisitResult.blocked ∧ env.visit2 = VisitResult.seen)) :
    (try_point env job s).job = { job with updated := some env.nowT } ∧
    (try_point env job s).scanDelayed = some (env.nowT - jobPriority job) ∧
    (try_point env job s).state.visits = s.visits + 1 ∧
    (try_point env job s).outcome = Outcome.success := by
  obtain ⟨best, hsel, hbw⟩ := best_worker_found env.running env.workers
    env.wallTime env.speedLimitConf (env.jitterFn (job.lat, job.lon) jitterCoarse)
    job (jobPriority job) (env.monotonicT + env.searchSleep * 2) hrun hidle
  rcases hv with hv | ⟨hv1, hv2⟩
  · simp [try_point, try_point_body, hbw, hnc, hv]
  · simp [try_point, try_point_body, hbw, hnc, hv1, hv2]

/-- Fixtures for the C6 witness. -/
def c6worker : WorkerM := ⟨0, false, fun _ => 3, none, 0⟩

def c6job : Job := ⟨6, 16, 0, 0, some 2, some 40⟩

def c6env : Env :=
  { running := true, workers := [c6worker], jitterFn := fun p _ => p,
    visit1 := VisitResult.seen, visit2 := VisitResult.seen,
    cancelDuringVisit := false, nowT := 100, wallTime := 100,
    monotonicT := 0, searchSleep := 10, speedLimitConf := 19, seqTime := 101 }

def c6state : RaiderState := ⟨[], 4, 2, 1, 1⟩

/-- Witness for C6: a first-try success stamps `updated = 100`, records
a delay of `100 - 40`, and bumps the success counter from 4 to 5. -/
theorem c6_success_updates_job_and_metrics_witness :
    (try_point c6env c6job c6state).job
        = { c6job with updated := some c6env.nowT } ∧
    (try_point c6env c6job c6state).scanDelayed
        = some (c6env.nowT - jobPriority c6job) ∧
    (try_point c6env c6job c6state).state.visits = c6state.visits + 1 ∧
    (try_point c6env c6job c6state).outcome = Outcome.success :=
  c6_success_updates_job_and_metrics c6env c6job c6state rfl
    (by simp [c6env, c6worker]) rfl (Or.inl rfl)

/-- C9: the dispatch loop of `launch` terminates only on explicit
cancellation — over any finite schedule it reaches the cancelled exit
exactly when a cancellation event occurs, and it is still running after
any schedule of iterations whose inner bodies may have failed (each such
failure is caught and logged and the loop proceeds past its 1-second
sleep); moreover no error from an individual visit attempt escapes:
the only outcome `try_point` re-raises is cancellation of the attempt
itself. -/
theorem c9_loop_survives_attempt_errors :
    (∀ evs : List LoopEvent,
      launch_loop evs = LoopExit.cancelled ↔ LoopEvent.cancel ∈ evs) ∧
    (∀ evs : List LoopEvent, (∀ e ∈ evs, e ≠ LoopEvent.cancel) →
      launch_loop evs = LoopExit.stillRunning) ∧
    (∀ (env : Env) (job : Job) (s : RaiderState),
      (try_point env job s).outcome = Outcome.cancelled →
        env.cancelDuringVisit = true) := by
  refine ⟨?_, ?_, ?_⟩
  · intro evs
    induction evs with
    | nil => simp [launch_loop]
    | cons e rest ih =>
      cases e with
      | cancel => simp [launch_loop]
      | iteration b => simp [launch_loop, ih]
  · intro evs h
    induction evs with
    | nil => rfl
    | cons e rest ih =>
      cases e with
      | cancel => exact absurd rfl (h LoopEvent.cancel (List.mem_cons_self _ _))
      | iteration b =>
        rw [launch_loop]
        exact ih fun e he => h e (List.mem_cons_of_mem _ he)
  · intro env job s h
    by_cases hc : env.cancelDuringVisit = true
    · exact hc
    · exfalso
      have hc2 : env.cancelDuringVisit = false := by simpa using hc
      rcases hbw : best_worker env.running env.workers env.wallTime
          env.speedLimitConf (env.jitterFn (job.lat, job.lon) jitterCoarse) job
          (jobPriority job) (env.monotonicT + env.searchSleep * 2) with e | ow
      · simp [try_point, try_point_body, hbw] at h
      · cases ow with
        | none => simp [try_point, try_point_body, hbw] at h
        | some w =>
          cases hv1 : env.visit1 <;> cases hv2 : env.visit2 <;>
            simp [try_point, try_point_body, hbw, hc2, hv1, hv2] at h

/-- Witness for C9: a schedule of one failed and one clean iteration
leaves the loop running. -/
theorem c9_loop_survives_attempt_errors_witness :
    launch_loop [LoopEvent.iteration true, LoopEvent.iteration false]
      = LoopExit.stillRunning :=
  c9_loop_survives_attempt_errors.2.1
    [LoopEvent.iteration true, LoopEvent.iteration false] (by decide)

/-- C2: after any sequence of pushes whose `time()` readings are
strictly increasing (the sequence component then reflects enqueue
order), `pop` returns an entry whose `(priority, seq)` key is smallest
in the lexicographic order among all entries present — so among equal
priorities the earliest-enqueued job wins — and the entries carry
pairwise strictly increasing sequence numbers in enqueue order. -/
theorem c2_pop_returns_lex_min (jobs : List Job) (t : Nat → Int)
    (hmono : StrictMono t) (hne : jobs ≠ []) :
    ∃ m rest, popMin (buildQueue t jobs) = some (m, rest) ∧
      m ∈ buildQueue t jobs ∧
      (∀ e ∈ buildQueue t jobs,
        m.priority < e.priority ∨
          (m.priority = e.priority ∧ m.seq ≤ e.seq)) ∧
      List.Pairwise (fun a b : Entry => a.seq < b.seq) (buildQueue t jobs) := by
  have hq : buildQueue t jobs = entriesFrom t 0 jobs := buildQueue_eq t jobs
  have hqne : buildQueue t jobs ≠ [] := by
    rw [hq]
    cases jobs with
    | nil => exact absurd rfl hne
    | cons j js => rw [entriesFrom]; exact List.cons_ne_nil _ _
  cases hp : popMin (buildQueue t jobs) with
  | none => exact absurd ((popMin_none_iff _).mp hp) hqne
  | some p =>
    obtain ⟨m, rest⟩ := p
    refine ⟨m, rest, rfl, popMin_mem hp, ?_, ?_⟩
    · intro e he
      have hle := popMin_min hp e he
      rw [Bool.eq_false_iff, Ne, keyLtB_iff] at hle
      omega
    · rw [hq]
      exact entriesFrom_pairwise t hmono jobs 0

/-- Fixtures for the C2 witness: two jobs with equal priority 7 pushed
at times 0 and 1. -/
def c2jobA : Job := ⟨7, 17, 0, 0, some 0, some 7⟩

def c2jobB : Job := ⟨8, 18, 0, 0, some 0, some 7⟩

def c2t : Nat → Int := fun n => (n : Int)

/-- Witness for C2: on the two equal-priority jobs the pop is the
earlier-enqueued one, concretely `(7, 0, jobA)` with `(7, 1, jobB)`
remaining. -/
theorem c2_pop_returns_lex_min_witness :
    (∃ m rest, popMin (buildQueue c2t [c2jobA, c2jobB]) = some (m, rest) ∧
      m ∈ buildQueue c2t [c2jobA, c2jobB] ∧
      (∀ e ∈ buildQueue c2t [c2jobA, c2jobB],
        m.priority < e.priority ∨
          (m.priority = e.priority ∧ m.seq ≤ e.seq)) ∧
      List.Pairwise (fun a b : Entry => a.seq < b.seq)
        (buildQueue c2t [c2jobA, c2jobB])) ∧
    popMin (buildQueue c2t [c2jobA, c2jobB])
      = some (⟨7, 0, c2jobA⟩, [⟨7, 1, c2jobB⟩]) :=
  ⟨c2_pop_returns_lex_min [c2jobA, c2jobB] c2t
     (fun a b hab => by simp only [c2t]; exact_mod_cast hab)
     (List.cons_ne_nil _ _),
   rfl⟩

/-- Witness for C10: a concrete environment with the run flag false. -/
theorem c10_run_flag_false_returns_none_witness :
    (try_point { c1env with running := false } c1job c1state).outcome
        = Outcome.noWorker ∧
    (try_point { c1env with running := false } c1job c1state).state.skipped
        = c1state.skipped :=
  ⟨(c10_run_flag_false_returns_none { c1env with running := false }
      c1job c1state rfl).2.1,
   (c10_run_flag_false_returns_none { c1env with running := false }
      c1job c1state rfl).2.2.2.1⟩

end WorkerRaider
